import Mathlib

/-!
Verification of the product-scraper core of `src/app.py` (class `ProductScraper`).

Modelling conventions (shallow embedding):
* Python strings are Lean `String` (a list of characters); `needle in hay`
  is `pyIn`, `str.lower()` is `pyLower`, `str.strip()` is
  `pyStrip`, `len` is `String.length`.  Character classes (`\d`,
  `[A-Z]`, `isupper`, `isdigit`) are modelled over ASCII via
  `Char.isDigit` / `Char.isUpper`.
* BeautifulSoup is an external library: the parsed page is modelled as a
  `Document` record whose fields hold, for each query the source code
  performs, the sequence of element texts / attribute values that the
  query would yield, in the order the code iterates over them.
* The Python `re` engine is treated as follows: regex patterns whose exact
  semantics a claim depends on (the price pattern
  `\d{1,3}(?:,\d{3})*(?:\.\d{2})?` and its sibling, the brand
  specification pattern, the anchored substitutions in name/brand
  cleaning) are implemented concretely, following Python's
  leftmost-then-greedy matching; the remaining pattern cascades (weight,
  gtin, dimensions) are passed as pattern strings to an abstract engine
  parameter `search`, so that statements about them hold for every engine.
* Fallible fetching is the inductive `FetchOutcome`; `scrape_product`
  returns `Except String ProductRecord` (raising = `Except.error`).
  Dict keys that are present only on some paths (`blocked`, `message`,
  `debug_info`, `error`) are `Option` fields of `ProductRecord`; a key is
  present in the Python dict exactly when the field is `some`.
-/

/-- Python `needle in hay` on lists of characters: some suffix of `hay`
starts with `needle`. -/
def subList (n : List Char) : List Char → Bool
  | [] => n.isEmpty
  | c :: cs => n.isPrefixOf (c :: cs) || subList n cs

/-- Python substring containment `needle in hay`. -/
def pyIn (needle hay : String) : Bool := subList needle.data hay.data

/-- Python `str.isdigit()` (restricted to ASCII digits). -/
def pyIsDigit (s : String) : Bool := !s.data.isEmpty && s.data.all Char.isDigit

/-- Python `str.lower()`, character-wise (ASCII model). -/
def pyLower (s : String) : String := String.mk (s.data.map Char.toLower)

/-- Python `str.strip()` with no argument: trim whitespace at both ends. -/
def pyStrip (s : String) : String :=
  String.mk (((s.data.dropWhile Char.isWhitespace).reverse.dropWhile
    Char.isWhitespace).reverse)

/-- Worker for whitespace splitting: accumulate the current word
(reversed) and emit it at each whitespace run or at the end. -/
def wsWordsAux : List Char → List Char → List String
  | [], acc => if acc.isEmpty then [] else [String.mk acc.reverse]
  | c :: rest, acc =>
    if c.isWhitespace then
      if acc.isEmpty then wsWordsAux rest []
      else String.mk acc.reverse :: wsWordsAux rest []
    else wsWordsAux rest (c :: acc)

/-- Python `str.split()` with no argument: split on whitespace runs,
dropping empty pieces. -/
def pySplitWs (s : String) : List String := wsWordsAux s.data []

/-- Worker for separator splitting: split at each non-overlapping,
leftmost occurrence of the (nonempty) separator.  The fuel argument (one
unit per consumed character) keeps the recursion structural; it is always
sufficient when seeded with the input length. -/
def splitSepAux (sep : List Char) : Nat → List Char → List Char → List (List Char)
  | _, [], acc => [acc.reverse]
  | 0, cs, acc => [acc.reverse ++ cs]
  | fuel + 1, c :: rest, acc =>
    if sep ≠ [] ∧ sep.isPrefixOf (c :: rest) then
      acc.reverse :: splitSepAux sep fuel ((c :: rest).drop sep.length) []
    else splitSepAux sep fuel rest (c :: acc)

/-- Python `str.split(sep)` with a nonempty separator (keeps empty
pieces, as `str.split` does). -/
def pySplitSep (sep s : String) : List String :=
  (splitSepAux sep.data s.data.length s.data []).map String.mk

/-- Python truthiness of an optional string attribute (`None` and `""` are
falsy). -/
def pyTruthyO : Option String → Bool
  | some s => s ≠ ""
  | none => false

/-- First truthy value of an attribute lookup, as in `element.get(attr)`
guarded by an `if`/`or` chain. -/
def attrTruthy (o : Option String) : Option String :=
  o.bind (fun s => if s = "" then none else some s)

/-- Python `str.startswith(pre)`, list-based. -/
def pyStartsWith (s pre : String) : Bool := pre.data.isPrefixOf s.data

/-- Python `str.endswith(suf)`, list-based. -/
def pyEndsWith (s suf : String) : Bool := suf.data.isSuffixOf s.data

/-- Python `str.rstrip('.')`: remove trailing dots. -/
def rstripDots (s : String) : String :=
  String.mk ((s.data.reverse.dropWhile (fun c => c = '.')).reverse)

/-- Drop the first `n` characters of a string. -/
def dropChars (s : String) : Nat → String := fun n => String.mk (s.data.drop n)

/-- Case-insensitive prefix test (used for anchored, case-insensitive
`re.sub` patterns). -/
def ciPrefix (pre s : String) : Bool :=
  ((pyLower pre).data).isPrefixOf ((pyLower s).data)

/-! ### Concrete matcher for the price regex

`re.search(r'(\d{1,3}(?:,\d{3})*(?:\.\d{2})?)', text)` from
`extract_price` (src/app.py lines 1771-1772), and the sibling pattern
`(\d{1,3}(?:,\d{3})*\.?\d*)` used on the parent of `span.a-price-whole`
(lines 1795-1796).  Python semantics: leftmost match wins; every
quantifier here can settle greedily because all trailing parts can match
the empty string. -/

/-- Greedily take up to `n` leading ASCII digits (`\d{1,n}` at the start of
the remaining input). -/
def takeDigitsUpTo : Nat → List Char → List Char × List Char
  | _, [] => ([], [])
  | 0, cs => ([], cs)
  | n + 1, c :: cs =>
    if c.isDigit then
      let p := takeDigitsUpTo n cs
      (c :: p.1, p.2)
    else ([], c :: cs)

/-- Greedily consume `(?:,\d{3})*`: repeated comma-plus-three-digit
groups. -/
def commaGroups (cs : List Char) : List Char × List Char :=
  match cs with
  | ',' :: a :: b :: c :: rest =>
    if a.isDigit && b.isDigit && c.isDigit then
      let p := commaGroups rest
      (',' :: a :: b :: c :: p.1, p.2)
    else ([], cs)
  | _ => ([], cs)

/-- Consume `(?:\.\d{2})?`: an optional dot followed by exactly two
digits. -/
def fracPart (cs : List Char) : Option (List Char) :=
  match cs with
  | '.' :: a :: b :: _ => if a.isDigit && b.isDigit then some ['.', a, b] else none
  | _ => none

/-- Try the price pattern `\d{1,3}(?:,\d{3})*(?:\.\d{2})?` anchored at the
head of the input, returning the matched group. -/
def priceMatchAt (cs : List Char) : Option (List Char) :=
  match cs with
  | [] => none
  | c :: _ =>
    if c.isDigit then
      let p1 := takeDigitsUpTo 3 cs
      let p2 := commaGroups p1.2
      match fracPart p2.2 with
      | some f => some (p1.1 ++ p2.1 ++ f)
      | none => some (p1.1 ++ p2.1)
    else none

/-- Leftmost search of the price pattern over the input. -/
def priceSearch : List Char → Option (List Char)
  | [] => none
  | c :: cs =>
    match priceMatchAt (c :: cs) with
    | some g => some g
    | none => priceSearch cs

/-- Try the looser pattern `\d{1,3}(?:,\d{3})*\.?\d*` anchored at the head
of the input. -/
def priceMatchAt2 (cs : List Char) : Option (List Char) :=
  match cs with
  | [] => none
  | c :: _ =>
    if c.isDigit then
      let p1 := takeDigitsUpTo 3 cs
      let p2 := commaGroups p1.2
      let p3 : List Char × List Char :=
        match p2.2 with
        | '.' :: rest => (['.'], rest)
        | r => ([], r)
      some (p1.1 ++ p2.1 ++ p3.1 ++ p3.2.takeWhile Char.isDigit)
    else none

/-- Leftmost search of the looser price pattern. -/
def priceSearch2 : List Char → Option (List Char)
  | [] => none
  | c :: cs =>
    match priceMatchAt2 (c :: cs) with
    | some g => some g
    | none => priceSearch2 cs

/-- Model of `re.sub(r'^[A-Z]{3}\s*', '', text)`: strip one leading
three-uppercase-letter currency code plus following whitespace. -/
def stripLeadingCurrencyCode (cs : List Char) : List Char :=
  match cs with
  | a :: b :: c :: rest =>
    if a.isUpper && b.isUpper && c.isUpper then rest.dropWhile Char.isWhitespace
    else cs
  | _ => cs

/-- The currency symbols removed by `re.sub(r'[\$£€¥₹]\s*', '', text)`. -/
def currencySymbols : List Char := ['$', '£', '€', '¥', '₹']

/-- Worker for the currency-symbol substitution, with structural fuel
(one unit per consumed character; always sufficient when seeded with the
input length). -/
def stripCurrencySymbolsFuel : Nat → List Char → List Char
  | _, [] => []
  | 0, cs => cs
  | fuel + 1, c :: cs =>
    if c ∈ currencySymbols then stripCurrencySymbolsFuel fuel (cs.dropWhile Char.isWhitespace)
    else c :: stripCurrencySymbolsFuel fuel cs

/-- Model of the global substitution `re.sub(r'[\$£€¥₹]\s*', '', text)`:
delete every currency symbol together with the whitespace run following
it. -/
def stripCurrencySymbols (cs : List Char) : List Char :=
  stripCurrencySymbolsFuel cs.length cs

/-- The element-text branch of `extract_price` (src/app.py lines
1762-1778): strip a leading currency code and currency symbols, search the
price pattern, strip thousands commas, and append `.00` when the match has
no decimal point. -/
def elementTextPrice (t : String) : Option String :=
  let cleaned := stripCurrencySymbols (stripLeadingCurrencyCode t.data)
  match priceSearch cleaned with
  | some g =>
    let p := g.filter (fun c => c ≠ ',')
    some (String.mk (if p.contains '.' then p else p ++ ['.', '0', '0']))
  | none => none

/-! ### Data model -/

/-- The `debug_info` mapping built in `scrape_product` (src/app.py lines
1142-1147). -/
structure DebugInfo where
  status : Nat
  responseLength : Nat
  robotCheck : Bool
  captcha : Bool
deriving Repr, DecidableEq

/-- The dimensions record returned by `extract_dimensions` (src/app.py
lines 1904-1910).  Python floats are modelled as rationals; no claim
inspects the numeric values. -/
structure Dimensions where
  raw : String
  length : Option Rat
  width : Option Rat
  height : Option Rat
  unit : Option String
deriving Repr, DecidableEq

/-- The sentinel-initialised dimensions structure. -/
def sentinelDimensions : Dimensions :=
  { raw := "Dimensions not found", length := none, width := none,
    height := none, unit := none }

/-- The output dict of `scrape_product`.  `Option` fields model dict keys
that only some paths insert: the key is present exactly when the field is
`some`. -/
structure ProductRecord where
  name : String
  brand : String
  gtin : String
  description : String
  images : List String
  price : String
  currency : String
  source : String
  weight : String
  dimensions : Dimensions
  blocked : Option Bool
  message : Option String
  debugInfo : Option DebugInfo
  error : Option String
deriving Repr, DecidableEq

/-- A description-selector hit: a bullet list, an iframe (with optional
`src` attribute and element text), or any other element. -/
inductive DescEl where
  | ul (bullets : List String)
  | iframe (src : Option String) (text : String)
  | other (text : String)
deriving Repr, DecidableEq

/-- An image element's attributes, as read by `extract_images`.  `dyn` is
the parse result of the JSON `data-a-dynamic-image` attribute (its key
list, in order); `none` covers a missing/falsy attribute or a JSON parse
failure. -/
structure ImgEl where
  src : Option String := none
  dataSrc : Option String := none
  dataOldHires : Option String := none
  dyn : Option (List String) := none
  dataLazySrc : Option String := none
  dataOriginal : Option String := none
  dataZoomImage : Option String := none
deriving Repr, DecidableEq

/-- The `image` value of one JSON-LD script as read by `extract_images`:
a single string, a list, or nothing usable (parse failure, non-dict data,
or no `image` key). -/
inductive LdImageScript where
  | str (s : String)
  | list (l : List String)
  | skip
deriving Repr, DecidableEq

/-- One JSON-LD script as read by `extract_price`.  For a dict,
`offersPrice` is `some` exactly when `'offers' in data and 'price' in
data['offers']` holds (the value already passed through `str`), and
`topPrice` when `'price' in data`.  A list holds that pair per dict item.
`fail` covers unparsable scripts. -/
inductive PriceScript where
  | dict (offersPrice : Option String) (topPrice : Option String)
  | list (items : List (Option String × Option String))
  | fail
deriving Repr, DecidableEq

/-- A price-selector hit: a `meta` tag (with optional `content`
attribute) or an ordinary element with text. -/
inductive PriceEl where
  | meta (content : Option String)
  | textEl (text : String)
deriving Repr, DecidableEq

/-- A JSON-LD `brand` value: a dict (with optional `name` key), a plain
string, or some other type. -/
inductive LdBrand where
  | obj (name : Option String)
  | str (s : String)
  | other
deriving Repr, DecidableEq

/-- One JSON-LD script as read by `extract_brand`: a dict (with optional
`brand` key), a list of items (`none` for non-dict items or dicts without
`brand`), or an unparsable script. -/
inductive BrandScript where
  | dict (brand : Option LdBrand)
  | list (items : List (Option LdBrand))
  | fail
deriving Repr, DecidableEq

/-- One JSON-LD script as read by `extract_gtin`: a dict modelled as an
association list of string keys to `str`-converted values, plus the
`offers` sub-dict when present and a dict; or a list of dict items; or an
unparsable script. -/
inductive GtinScript where
  | dict (top : List (String × String)) (offers : Option (List (String × String)))
  | list (items : List (List (String × String)))
  | fail
deriving Repr, DecidableEq

/-- A regex match for the dimension patterns: the whole matched text
(`group(0)`) and all capture groups (`groups()`, `none` for a group that
did not participate). -/
structure DimMatch where
  whole : String
  groups : List (Option String)
deriving Repr, DecidableEq

/-- The Python `re` engine, abstracted for the pattern cascades whose
exact semantics no claim depends on.  `search2` returns
`(group(1), group(2))` of a match, `search1` returns `group(1)`, and
`searchDims` returns the whole match and all groups.  All calls in the
source use `re.IGNORECASE`; the flag is part of the engine. -/
structure RegexEngine where
  search2 : String → String → Option (String × String)
  search1 : String → String → Option String
  searchDims : String → String → Option DimMatch

/-- The parsed page: for each query `ProductScraper` performs against the
soup, the sequence of element texts / attribute values that the query
yields, in the order the code iterates over them.  Element texts are the
results of `get_text(strip=True)` where the code asks for them stripped,
raw `get_text()` otherwise. -/
structure Document where
  nameElems : List String := []
  titleText : Option String := none
  brandScripts : List BrandScript := []
  brandElems : List String := []
  detailRows : List String := []
  specTexts : List String := []
  gtinScripts : List GtinScript := []
  gtinElems : List String := []
  gtinBullets : List String := []
  descrElems : List DescEl := []
  metaDesc : Option (Option String) := none
  ogDesc : Option (Option String) := none
  amazonImgs : List ImgEl := []
  generalImgs : List ImgEl := []
  ldImages : List LdImageScript := []
  priceScripts : List PriceScript := []
  priceElems : List PriceEl := []
  priceWhole : Option String := none
  priceFraction : Option String := none
  priceWholeParent : Option String := none
  metaPriceCurrency : Option (Option String) := none
  currencyScripts : List (Option String) := []
  weightTexts : List String := []
  dimTexts : List String := []
deriving Repr, DecidableEq

/-- The empty page: every query yields nothing. -/
def emptyDoc : Document := {}

/-- An HTTP response: final (post-redirect) URL, status code, body text,
and the parsed document of the body. -/
structure HttpResponse where
  finalUrl : String
  status : Nat
  text : String
  doc : Document
deriving Repr, DecidableEq

/-- Outcome of `self.session.get(url, timeout=15, allow_redirects=True)`
plus `raise_for_status()`: a response, a `requests.exceptions.Timeout`,
or any other exception with its message. -/
inductive FetchOutcome where
  | success (resp : HttpResponse)
  | timeout
  | netError (msg : String)
deriving Repr, DecidableEq

/-! ### Extractors (src/app.py lines 1250-1973) -/

/-- Truncate the character list at the first position where `f` holds of
the remaining suffix (models an anchored-to-end `re.sub(..., '')` that
deletes from the leftmost match to the end). -/
def cutWhen (f : List Char → Bool) : List Char → List Char
  | [] => []
  | c :: cs => if f (c :: cs) then [] else c :: cutWhen f cs

/-- Does `\s*-\s*Amazon\.ca` match at the head of the input? -/
def matchesDashAmazon (cs : List Char) : Bool :=
  match cs.dropWhile Char.isWhitespace with
  | '-' :: rest => "Amazon.ca".data.isPrefixOf (rest.dropWhile Char.isWhitespace)
  | _ => false

/-- Does `\s*\|` match at the head of the input? -/
def matchesPipe (cs : List Char) : Bool :=
  match cs.dropWhile Char.isWhitespace with
  | '|' :: _ => true
  | _ => false

/-- Model of `re.sub(r'\s*-\s*Amazon\.ca.*$', '', title_text)` on a
single-line title. -/
def subAmazonCa (s : String) : String := String.mk (cutWhen matchesDashAmazon s.data)

/-- Model of `re.sub(r'\s*\|\s*.*$', '', title_text)` on a single-line
title. -/
def subPipe (s : String) : String := String.mk (cutWhen matchesPipe s.data)

/-- `extract_name` (src/app.py lines 1250-1298): first selector hit whose
stripped text has more than 5 characters, else the cleaned page title,
else the sentinel. -/
def extract_name (doc : Document) : String :=
  match doc.nameElems.findSome? (fun t => if t ≠ "" ∧ t.length > 5 then some t else none) with
  | some n => n
  | none =>
    match doc.titleText with
    | some t =>
      let t2 := subPipe (subAmazonCa t)
      if t2 ≠ "" then t2 else "Product name not found"
    | none => "Product name not found"

/-- The value one JSON-LD script contributes in `extract_brand` (lines
1302-1322): a dict's `brand` as a name-bearing dict or a plain string,
possibly inside a list of items. -/
def brandScriptVal : BrandScript → Option String
  | .dict b =>
    match b with
    | some (.obj (some n)) => some n
    | some (.str s) => some s
    | _ => none
  | .list items =>
    items.findSome? (fun it =>
      match it with
      | some (.obj (some n)) => some n
      | some (.str s) => some s
      | _ => none)
  | .fail => none

/-- Model of `re.sub(r'^(Brand:|by|Visit the|Store)', '', text,
flags=re.IGNORECASE)`: the alternatives are tried left to right at the
start of the string only. -/
def stripBrandPrefix (s : String) : String :=
  if ciPrefix "Brand:" s then dropChars s 6
  else if ciPrefix "by" s then dropChars s 2
  else if ciPrefix "Visit the" s then dropChars s 9
  else if ciPrefix "Store" s then dropChars s 5
  else s

/-- The value one brand-selector hit contributes (lines 1354-1363). -/
def brandElemVal (t : String) : Option String :=
  let b := pyStrip (stripBrandPrefix t)
  if b ≠ "" ∧ b.length < 50 ∧ b ∉ ["Unknown", "N/A"] then some b else none

/-- The value one detail-table row contributes (lines 1368-1376). -/
def brandRowVal (t : String) : Option String :=
  if pyIn "brand" (pyLower t) then
    match (pySplitSep ":" t).get? 1 with
    | some v =>
      let b := pyStrip v
      if b ≠ "" ∧ b.length < 50 then some b else none
    | none => none
  else none

/-- Is a character outside `[^\n\r]`? -/
def nonNl (c : Char) : Bool := c ≠ '\n' && c ≠ '\r'

/-- Try `Brand[:\s]+([^\n\r]+)` (case-insensitive) anchored at the head of
the input, with Python's greedy separator run and the backtracking it
allows when the string ends inside the run. -/
def brandMatchAt (cs : List Char) : Option String :=
  if (cs.take 5).map Char.toLower = "brand".data then
    let r := cs.drop 5
    let sep := r.takeWhile (fun c => c = ':' || c.isWhitespace)
    if sep.isEmpty then none
    else
      let rest2 := r.drop sep.length
      if rest2.isEmpty then
        match ((List.range sep.length).filter
            (fun j => decide (1 ≤ j) && nonNl (sep.getD j ' '))).max? with
        | some j => some (String.mk ((sep.drop j).takeWhile nonNl))
        | none => none
      else some (String.mk (rest2.takeWhile nonNl))
  else none

/-- Leftmost search of the brand-specification pattern. -/
def brandSearch : List Char → Option String
  | [] => none
  | c :: cs =>
    match brandMatchAt (c :: cs) with
    | some g => some g
    | none => brandSearch cs

/-- The value one specification region contributes (lines 1388-1398). -/
def brandSpecVal (t : String) : Option String :=
  match brandSearch t.data with
  | some g =>
    let b := pyStrip g
    if b ≠ "" ∧ b.length < 50 then some b else none
  | none => none

/-- Does the word start with an uppercase (ASCII) letter, modelling
`first_word[0].isupper()`? -/
def headIsUpper (w : String) : Bool :=
  match w.data with
  | c :: _ => c.isUpper
  | [] => false

/-- The first-word-of-the-name brand fallback (src/app.py lines
1400-1414). -/
def brandFromName (product_name : String) : String :=
  if product_name ≠ "" ∧ product_name ≠ "Product name not found" then
    match pySplitWs product_name with
    | [] => ""
    | w :: _ =>
      if w.length > 2 ∧ w.length < 20 ∧ headIsUpper w then
        if w ∉ ["New", "The", "Premium", "Professional", "Original", "Genuine", "Authentic"]
        then w else ""
      else ""
  else ""

/-- `extract_brand` (src/app.py lines 1300-1414). -/
def extract_brand (doc : Document) (product_name : String) : String :=
  ((doc.brandScripts.findSome? brandScriptVal) <|>
   (doc.brandElems.findSome? brandElemVal) <|>
   (doc.detailRows.findSome? brandRowVal) <|>
   (doc.specTexts.findSome? brandSpecVal)).getD (brandFromName product_name)

/-- The JSON-LD keys probed by `extract_gtin`, in order. -/
def gtinKeys : List String := ["gtin", "gtin13", "gtin12", "gtin8", "isbn", "ean", "upc"]

/-- The value one JSON-LD script contributes in `extract_gtin` (lines
1418-1439). -/
def gtinScriptVal : GtinScript → Option String
  | .dict top offers =>
    (gtinKeys.findSome? (fun k => top.lookup k)) <|>
    (offers.bind (fun o => gtinKeys.findSome? (fun k => o.lookup k)))
  | .list items => items.findSome? (fun kv => gtinKeys.findSome? (fun k => kv.lookup k))
  | .fail => none

/-- The labeled-identifier regex cascade of `extract_gtin` (lines
1473-1482), as pattern strings for the abstract engine. -/
def gtin_patterns : List String :=
  [ "UPC[:\\s]+(\\d\x7b12\x7d)",
    "EAN[:\\s]+(\\d\x7b13\x7d)",
    "GTIN[:\\s]+(\\d\x7b8,14\x7d)",
    "ISBN-13[:\\s]+(\\d\x7b13\x7d)",
    "ISBN-10[:\\s]+(\\d\x7b10\x7d)",
    "ASIN[:\\s]+([A-Z0-9]\x7b10\x7d)",
    "\\b(\\d\x7b12,13\x7d)\\b" ]

/-- The value one detail bullet contributes (lines 1494-1505): a term hit,
the colon-separated value stripped of non-word characters, accepted at
length 10, 12 or 13. -/
def gtinBulletVal (t : String) : Option String :=
  if ["ASIN", "UPC", "EAN", "ISBN"].any (fun term => pyIn term t) then
    match (pySplitSep ":" t).get? 1 with
    | some v =>
      let value := String.mk ((pyStrip v).data.filter (fun c => c.isAlphanum || c = '_'))
      if value ≠ "" ∧ (value.length = 10 ∨ value.length = 12 ∨ value.length = 13)
      then some value else none
    | none => none
  else none

/-- `extract_gtin` (src/app.py lines 1416-1507). -/
def extract_gtin (rx : RegexEngine) (doc : Document) : String :=
  ((doc.gtinScripts.findSome? gtinScriptVal) <|>
   (doc.gtinElems.findSome? (fun t => gtin_patterns.findSome? (fun p => rx.search1 p t))) <|>
   (doc.gtinBullets.findSome? gtinBulletVal)).getD ""

/-- The value one description-selector hit contributes (lines 1537-1552). -/
def descElemVal : DescEl → Option String
  | .ul bullets =>
    if bullets ≠ [] then some ((String.intercalate " " (bullets.take 5)).take 500) else none
  | .iframe src text =>
    if pyTruthyO src then some "Full description available in item listing"
    else some (text.take 500)
  | .other text => some (text.take 500)

/-- `extract_description` (src/app.py lines 1509-1564). -/
def extract_description (doc : Document) : String :=
  match doc.descrElems.findSome? descElemVal with
  | some d => d
  | none =>
    match doc.metaDesc with
    | some content => (content.getD "").take 500
    | none =>
      match doc.ogDesc with
      | some content => (content.getD "").take 500
      | none => "Description not found"

/-- Split a URL after `://` into scheme and remainder, when present. -/
def schemeSplit? (u : String) : Option (String × String) :=
  match pySplitSep "://" u with
  | [s, r] => some (s, r)
  | s :: r :: rest => some (s, String.intercalate "://" (r :: rest))
  | _ => none

/-- Scheme plus host of a URL. -/
def siteRoot (base : String) : String :=
  match schemeSplit? base with
  | some (s, r) => s ++ "://" ++ String.mk (r.data.takeWhile (fun c => c ≠ '/'))
  | none => ""

/-- The base URL with its last path segment removed. -/
def baseDir (base : String) : String :=
  match schemeSplit? base with
  | some (s, r) =>
    let segs := pySplitSep "/" r
    if segs.length ≤ 1 then s ++ "://" ++ r ++ "/"
    else s ++ "://" ++ String.intercalate "/" segs.dropLast ++ "/"
  | none => base

/-- Simplified model of `urllib.parse.urljoin` (external library):
absolute references are kept, protocol-relative and root-relative
references are resolved against the base's scheme/host, other relatives
against the base directory.  No claim depends on the details of URL
resolution. -/
def urljoin (base rel : String) : String :=
  if rel = "" then base
  else if pyIn "://" rel then rel
  else if pyStartsWith rel "//" then
    (match schemeSplit? base with
     | some (s, _) => s ++ ":" ++ rel
     | none => "https:" ++ rel)
  else if pyStartsWith rel "/" then siteRoot base ++ rel
  else baseDir base ++ rel

/-- Conditional append of `extract_images` (lines 1607-1608 and
1659-1660): add the URL unless already collected or `.gif`-suffixed. -/
def addImage (images : List String) (u : String) : List String :=
  if u ∉ images ∧ ¬(pyEndsWith u ".gif") then images ++ [u] else images

/-- Attribute precedence of the Amazon branch (lines 1587-1601): `src`,
`data-src`, `data-old-hires`, then the first key of the JSON
`data-a-dynamic-image` attribute. -/
def amazonSrc (el : ImgEl) : Option String :=
  attrTruthy el.src <|> attrTruthy el.dataSrc <|> attrTruthy el.dataOldHires <|>
    el.dyn.bind List.head?

/-- Attribute precedence of the general branch (lines 1643-1647). -/
def generalSrc (el : ImgEl) : Option String :=
  attrTruthy el.src <|> attrTruthy el.dataSrc <|> attrTruthy el.dataLazySrc <|>
    attrTruthy el.dataOriginal <|> attrTruthy el.dataZoomImage

/-- Process one Amazon-branch image element (lines 1584-1608). -/
def processAmazonImg (base : String) (images : List String) (el : ImgEl) : List String :=
  match amazonSrc el with
  | some src =>
    if ¬(pyStartsWith src "data:") then
      let src1 := if pyStartsWith src "//" then "https:" ++ src else src
      addImage images (urljoin base src1)
    else images
  | none => images

/-- Process one general-branch image element (lines 1641-1660): skip
inline-data URLs, strip, coerce protocol-relative URLs, resolve, add. -/
def processGeneralImg (base : String) (images : List String) (el : ImgEl) : List String :=
  match generalSrc el with
  | some src =>
    if pyStartsWith src "data:" then images
    else
      let src1 := pyStrip src
      let src2 := if pyStartsWith src1 "//" then "https:" ++ src1 else src1
      addImage images (urljoin base src2)
  | none => images

/-- The selector-based image collection of `extract_images` (lines
1569-1660): the Amazon branch when the base URL contains `amazon`,
otherwise the general branch. -/
def selectorImages (doc : Document) (base_url : String) : List String :=
  if pyIn "amazon" base_url then
    doc.amazonImgs.foldl (processAmazonImg base_url) []
  else
    doc.generalImgs.foldl (processGeneralImg base_url) []

/-- The JSON-LD image harvest of `extract_images` (lines 1662-1675):
`image` strings are appended and `image` lists extended, verbatim. -/
def ldHarvest (doc : Document) : List String :=
  doc.ldImages.foldl (fun acc s =>
    match s with
    | .str v => acc ++ [v]
    | .list l => acc ++ l
    | .skip => acc) []

/-- Order-preserving de-duplication (lines 1677-1683). -/
def uniquePreserve (l : List String) : List String :=
  l.foldl (fun acc img => if img ∈ acc then acc else acc ++ [img]) []

/-- `extract_images` (src/app.py lines 1566-1685). -/
def extract_images (doc : Document) (base_url : String) : List String :=
  (uniquePreserve (selectorImages doc base_url ++ ldHarvest doc)).take 10

/-- The JSON-LD price normalisation (lines 1695-1717): append `.00` to a
price string with no decimal point that is all digits. -/
def ldNorm (p : String) : String :=
  if ¬(pyIn "." p) ∧ pyIsDigit p then p ++ ".00" else p

/-- The value one JSON-LD script contributes in `extract_price` (lines
1690-1719): `offers.price` first, then a top-level `price`, per dict. -/
def priceScriptVal : PriceScript → Option String
  | .dict offersPrice topPrice =>
    match offersPrice with
    | some p => some (ldNorm p)
    | none => topPrice.map ldNorm
  | .list items =>
    items.findSome? (fun it =>
      match it.1 with
      | some p => some (ldNorm p)
      | none => it.2.map ldNorm)
  | .fail => none

/-- The value one price-selector hit contributes (lines 1754-1778): the
meta-tag branch keeps the `content` attribute (commas stripped) when it is
digits after removing dots and commas; the text branch runs
`elementTextPrice`. -/
def priceElemVal : PriceEl → Option String
  | .meta content =>
    let price := content.getD ""
    if price ≠ "" ∧ pyIsDigit (String.mk (price.data.filter (fun c => c ≠ '.' ∧ c ≠ ','))) then
      some (String.mk (price.data.filter (fun c => c ≠ ',')))
    else none
  | .textEl t => elementTextPrice t

/-- The Amazon whole-plus-fraction fallback of `extract_price` (lines
1780-1803). -/
def amazonWholeFraction (doc : Document) : Option String :=
  match doc.priceWhole with
  | some wt0 =>
    let whole_text := rstripDots wt0
    match doc.priceFraction with
    | some ft => some (whole_text ++ "." ++ ft)
    | none =>
      match doc.priceWholeParent with
      | some ptext =>
        (match priceSearch2 ptext.data with
         | some g =>
           let p := g.filter (fun c => c ≠ ',')
           some (String.mk (if p.contains '.' then p else p ++ ['.', '0', '0']))
         | none => some (whole_text ++ ".00"))
      | none => some (whole_text ++ ".00")
  | none => none

/-- `extract_price` (src/app.py lines 1687-1805). -/
def extract_price (doc : Document) : String :=
  ((doc.priceScripts.findSome? priceScriptVal) <|>
   (doc.priceElems.findSome? priceElemVal) <|>
   amazonWholeFraction doc).getD "Price not found"

/-- `extract_currency` (src/app.py lines 1807-1847): Amazon domain chain
first, then the `priceCurrency` meta tag, then JSON-LD
`offers.priceCurrency`, then the walmart.ca/ebay.ca defaults, then USD. -/
def extract_currency (doc : Document) (url : String) : String :=
  if pyIn "amazon.ca" url then "CAD"
  else if pyIn "amazon.com" url then "USD"
  else if pyIn "amazon.co.uk" url then "GBP"
  else if pyIn "amazon.de" url || pyIn "amazon.fr" url ||
          pyIn "amazon.es" url || pyIn "amazon.it" url then "EUR"
  else if pyIn "amazon.co.jp" url then "JPY"
  else if pyIn "amazon.in" url then "INR"
  else if pyIn "amazon.com.au" url then "AUD"
  else
    match doc.metaPriceCurrency with
    | some content => content.getD "USD"
    | none =>
      match doc.currencyScripts.findSome? id with
      | some c => c
      | none =>
        if pyIn "walmart.ca" url then "CAD"
        else if pyIn "ebay.ca" url then "CAD"
        else "USD"

/-- The selector-pass weight patterns of `extract_weight` (src/app.py
lines 1851-1858), as the exact pattern strings handed to `re.search` with
`re.IGNORECASE`. -/
def weight_patterns : List String :=
  [ "weight[:\\s]*(\\d+\\.?\\d*)\\s*(kg|g|lbs?|pounds?|ounces?|oz|fl\\s*oz)",
    "(\\d+\\.?\\d*)\\s*(kg|g|lbs?|pounds?|ounces?|oz|fl\\s*oz)\\s*weight",
    "item\\s*weight[:\\s]*(\\d+\\.?\\d*)\\s*(kg|g|lbs?|pounds?|ounces?|oz|fl\\s*oz)",
    "shipping\\s*weight[:\\s]*(\\d+\\.?\\d*)\\s*(kg|g|lbs?|pounds?|ounces?|oz|fl\\s*oz)",
    "net\\s*wt\\.?\\s*(\\d+\\.?\\d*)\\s*(kg|g|lbs?|pounds?|ounces?|oz|fl\\s*oz)",
    "(\\d+\\.?\\d*)\\s*(fl\\s*oz|fluid\\s*ounces?)" ]

/-- The title-pass weight patterns of `extract_weight` (src/app.py lines
1885-1893). -/
def weight_title_patterns : List String :=
  [ "(\\d+\\.?\\d*)\\s*(fl\\.?\\s*oz|fluid\\s*ounces?)",
    "(\\d+\\.?\\d*)\\s*(oz|ounces?)\\b",
    "(\\d+\\.?\\d*)\\s*(ml|mL|milliliters?)",
    "(\\d+\\.?\\d*)\\s*(L|liters?)\\b",
    "(\\d+\\.?\\d*)\\s*(g|grams?)\\b",
    "(\\d+\\.?\\d*)\\s*(kg|kilograms?)\\b",
    "(\\d+\\.?\\d*)\\s*(lbs?|pounds?)\\b" ]

/-- The weight-backfill patterns of `scrape_product` (src/app.py lines
1198-1204). -/
def backfill_weight_patterns : List String :=
  [ "(\\d+\\.?\\d*)\\s*(fl\\.?\\s*oz|fluid\\s*ounces?)",
    "(\\d+\\.?\\d*)\\s*(oz|ounces?)\\b",
    "(\\d+\\.?\\d*)\\s*(ml|mL|milliliters?)",
    "(\\d+\\.?\\d*)\\s*(g|grams?)\\b",
    "(\\d+\\.?\\d*)\\s*(lbs?|pounds?)\\b" ]

/-- `f"{match.group(1)} {match.group(2)}"`. -/
def formatWeight (g : String × String) : String := g.1 ++ " " ++ g.2

/-- `extract_weight` (src/app.py lines 1849-1900): selector texts against
the weight patterns, then — when `_last_product_name` is set — the product
name against the title patterns, else the sentinel. -/
def extract_weight (search : String → String → Option (String × String))
    (weightTexts : List String) (lastProductName : Option String) : String :=
  match weightTexts.findSome? (fun t => weight_patterns.findSome? (fun p => search p t)) with
  | some g => formatWeight g
  | none =>
    match lastProductName with
    | some n =>
      match weight_title_patterns.findSome? (fun p => search p n) with
      | some g => formatWeight g
      | none => "Weight not found"
    | none => "Weight not found"

/-- The post-hoc weight backfill of `scrape_product` (src/app.py lines
1197-1209): when the weight is the sentinel and the name contains a unit
token, rerun the backfill patterns against the name and overwrite on first
match. -/
def weight_backfill (search : String → String → Option (String × String))
    (name : String) (weight : String) : String :=
  if weight = "Weight not found" ∧
      (["oz", "fl", "lb", "g", "kg", "ml"].any (fun u => pyIn u (pyLower name))) then
    match backfill_weight_patterns.findSome? (fun p => search p name) with
    | some g => formatWeight g
    | none => weight
  else weight

/-- The dimension patterns of `extract_dimensions` (src/app.py lines
1913-1923), as exact pattern strings. -/
def dim_patterns : List String :=
  [ "(\\d+\\.?\\d*)\\s*[\"\x27]?\\s*[Ll]\\s*[x×]\\s*(\\d+\\.?\\d*)\\s*[\"\x27]?\\s*[Ww]\\s*[x×]\\s*(\\d+\\.?\\d*)\\s*[\"\x27]?\\s*[Hh]\\s*[\"\x27]?\\s*(in|inches?|cm|mm)?",
    "[Ll]ength[:\\s]*(\\d+\\.?\\d*).*[Ww]idth[:\\s]*(\\d+\\.?\\d*).*[Hh]eight[:\\s]*(\\d+\\.?\\d*)\\s*(in|inches?|cm|mm)?",
    "(\\d+\\.?\\d*)\\s*[x×]\\s*(\\d+\\.?\\d*)\\s*[x×]\\s*(\\d+\\.?\\d*)\\s*(in|inches?|cm|mm|m)?",
    "dimensions?[:\\s]*(\\d+\\.?\\d*)\\s*[x×]\\s*(\\d+\\.?\\d*)\\s*[x×]\\s*(\\d+\\.?\\d*)\\s*(cm|mm|in|inches?|m)?",
    "(\\d+\\.?\\d*)[\"\x27″]\\s*[x×]\\s*(\\d+\\.?\\d*)[\"\x27″]",
    "(\\d+\\.?\\d*)\\s*[x×]\\s*(\\d+\\.?\\d*)\\s*(in|inches?|cm|mm)?" ]

/-- Digit characters folded to a natural number. -/
def natOfDigits (cs : List Char) : Nat :=
  cs.foldl (fun n c => 10 * n + (c.toNat - 48)) 0

/-- A decimal-digit string (with at most one dot) as a rational. -/
def ratOfDecimal (cs : List Char) : Rat :=
  let intPart := cs.takeWhile (fun c => c ≠ '.')
  let frac := (cs.dropWhile (fun c => c ≠ '.')).drop 1
  (natOfDigits intPart : Rat) + (natOfDigits frac : Rat) / ((10 : Rat) ^ frac.length)

/-- Model of Python `float(s)` on the strings the dimension/weight groups
produce (`\d+\.?\d*` shapes); anything else raises `ValueError`, modelled
as `none`. -/
def pyFloat (s : String) : Option Rat :=
  let cs := s.data
  if cs ≠ [] ∧ cs.all (fun c => c.isDigit || c = '.') ∧ cs.count '.' ≤ 1 ∧
      cs.any Char.isDigit
  then some (ratOfDecimal cs) else none

/-- `float` applied to an optional capture group. -/
def pyFloatO (g : Option String) : Option Rat := g.bind pyFloat

/-- The unit strings recognised by `extract_dimensions`. -/
def dimUnits : List String := ["in", "cm", "mm", "inches", "m"]

/-- Python `g in ['in', 'cm', 'mm', 'inches', 'm']` on an optional capture
group (`None in [...]` is false). -/
def optInDimUnits : Option String → Bool
  | some s => decide (s ∈ dimUnits)
  | none => false

/-- The match-processing block of `extract_dimensions` (src/app.py lines
1946-1962), with the `except (ValueError, IndexError): pass` semantics:
fields assigned before a failing `float` call keep their values. -/
def applyDimMatch (m : DimMatch) : Dimensions :=
  let base : Dimensions :=
    { raw := pyStrip m.whole, length := none, width := none, height := none, unit := none }
  if m.groups.length ≥ 2 then
    match pyFloatO (m.groups.getD 0 none) with
    | none => base
    | some lv =>
      let b1 := { base with length := some lv }
      match pyFloatO (m.groups.getD 1 none) with
      | none => b1
      | some wv =>
        let b2 := { b1 with width := some wv }
        let hStep : Option Dimensions :=
          if decide (m.groups.length ≥ 3) && pyTruthyO (m.groups.getD 2 none) &&
              !optInDimUnits (m.groups.getD 2 none) then
            match pyFloatO (m.groups.getD 2 none) with
            | none => none
            | some hv => some { b2 with height := some hv }
          else some b2
        match hStep with
        | none => b2
        | some b3 =>
          { b3 with unit := some (match m.groups.getLast? with
                                  | some (some s) => if s ∈ dimUnits then s else "in"
                                  | _ => "in") }
  else base

/-- `extract_dimensions` (src/app.py lines 1902-1973): selector texts
against all six patterns, then the product name against the two 2-D
patterns (raw text only), else the sentinel structure. -/
def extract_dimensions (rx : RegexEngine) (dimTexts : List String)
    (lastProductName : Option String) : Dimensions :=
  match dimTexts.findSome? (fun t => dim_patterns.findSome? (fun p => rx.searchDims p t)) with
  | some m => applyDimMatch m
  | none =>
    match lastProductName with
    | some n =>
      match (dim_patterns.drop 4).findSome? (fun p => rx.searchDims p n) with
      | some m => { sentinelDimensions with raw := pyStrip m.whole }
      | none => sentinelDimensions
    | none => sentinelDimensions

/-! ### scrape_product (src/app.py lines 1127-1248) -/

/-- The bot-blocking test of src/app.py line 1154:
`'Robot Check' in response.text or 'captcha' in response.text.lower()`.
Note the first disjunct is case-sensitive. -/
def blockedCheck (text : String) : Bool :=
  pyIn "Robot Check" text || pyIn "captcha" (pyLower text)

/-- `scrape_product`.  `delay` models the value drawn by
`time.sleep(random.uniform(1, 3))` and `userAgent` the identity drawn by
`random.choice(user_agents)`; extraction reads neither.  The fetch result
(including the final redirected URL and the parsed document) is the
`FetchOutcome`. -/
def scrape_product (rx : RegexEngine) (delay : Nat) (userAgent : String)
    (url : String) (outcome : FetchOutcome) : Except String ProductRecord :=
  match outcome with
  | .success resp =>
    let url := resp.finalUrl
    let debug_info : DebugInfo :=
      { status := resp.status
        responseLength := resp.text.length
        robotCheck := pyIn "robot check" (pyLower resp.text)
        captcha := pyIn "captcha" (pyLower resp.text) }
    if blockedCheck resp.text then
      .ok { name := "Product name not found", brand := "", gtin := "",
            description := "Amazon blocked automated access. Please enter details manually.",
            images := [], price := "Price not found",
            currency := if pyIn "amazon.ca" url then "CAD" else "USD",
            source := url, weight := "Weight not found",
            dimensions := sentinelDimensions,
            blocked := some true,
            message := some "Amazon detected automated access. Please enter product details manually.",
            debugInfo := some debug_info, error := none }
    else
      let doc := resp.doc
      let name := extract_name doc
      let price := extract_price doc
      let currency := extract_currency doc url
      let weight0 := extract_weight rx.search2 doc.weightTexts (some name)
      .ok { name := name
            brand := extract_brand doc name
            gtin := extract_gtin rx doc
            description := extract_description doc
            images := extract_images doc url
            price := price
            currency := currency
            source := url
            weight := weight_backfill rx.search2 name weight0
            dimensions := extract_dimensions rx doc.dimTexts (some name)
            blocked := some false
            message := none, debugInfo := none, error := none }
  | .timeout =>
    .ok { name := "Product name not found", brand := "", gtin := "",
          description := "Request timed out. The site may be slow or blocking automated access.",
          images := [], price := "Price not found", currency := "USD",
          source := url, weight := "Weight not found",
          dimensions := sentinelDimensions,
          blocked := none, message := none, debugInfo := none,
          error := some "Request timed out" }
  | .netError msg => .error ("Failed to scrape URL: " ++ msg)

/-! ### Claim-side definitions -/

/-- Does a character list match `\d+\.\d{2}` (nonempty digits, a dot,
exactly two digits)? -/
def specPriceShapeL (cs : List Char) : Bool :=
  let intPart := cs.takeWhile (fun c => c ≠ '.')
  (!intPart.isEmpty) && intPart.all Char.isDigit &&
    (match cs.dropWhile (fun c => c ≠ '.') with
     | ['.', a, b] => a.isDigit && b.isDigit
     | _ => false)

/-- Stated from the spec: a price matches `\d+(,\d{3})*\.\d{2}` after
thousands-commas are stripped — equivalently, stripped of commas it is
nonempty digits, a dot and exactly two fractional digits. -/
def specPriceShape (s : String) : Bool :=
  specPriceShapeL (s.data.filter (fun c => c ≠ ','))

/-- Stated from the spec (claim C8): the brand fallback returns the first
word of the product name exactly when that word starts with an uppercase
letter, has length strictly between 2 and 20, and is not a stoplist word;
otherwise the empty string. -/
def specBrandFallback (name : String) : String :=
  match pySplitWs name with
  | [] => ""
  | w :: _ =>
    if headIsUpper w ∧ 2 < w.length ∧ w.length < 20 ∧
        w ∉ ["New", "The", "Premium", "Professional", "Original", "Genuine", "Authentic"]
    then w else ""

/-- A regex engine that never matches (used to instantiate theorems at
concrete inputs). -/
def reNone : RegexEngine :=
  { search2 := fun _ _ => none, search1 := fun _ _ => none, searchDims := fun _ _ => none }

/-! ### Theorems -/

/-- C1: for every scrape whose response body triggers the blocking check,
`scrape_product` short-circuits and returns the blocked record — sentinels
for name/price/weight/dimensions, empty images, the blocked-explanation
description, `CAD` exactly when the final URL contains `amazon.ca` (else
`USD`), `blocked = true`, and `debug_info` holding the status code, the
body length and the two match flags.  The right-hand side mentions neither
the parsed document nor the regex engine: no extractor runs. -/
theorem c1_blocked_short_circuit (rx : RegexEngine) (delay : Nat) (ua url : String)
    (resp : HttpResponse) (h : blockedCheck resp.text = true) :
    scrape_product rx delay ua url (.success resp) =
      .ok { name := "Product name not found", brand := "", gtin := "",
            description := "Amazon blocked automated access. Please enter details manually.",
            images := [], price := "Price not found",
            currency := if pyIn "amazon.ca" resp.finalUrl then "CAD" else "USD",
            source := resp.finalUrl, weight := "Weight not found",
            dimensions := sentinelDimensions,
            blocked := some true,
            message := some "Amazon detected automated access. Please enter product details manually.",
            debugInfo := some { status := resp.status,
                                responseLength := resp.text.length,
                                robotCheck := pyIn "robot check" (pyLower resp.text),
                                captcha := pyIn "captcha" (pyLower resp.text) },
            error := none } := by
  simp only [scrape_product, h, if_true]

/-- Witness for C1 at a concrete captcha page on amazon.ca. -/
theorem c1_blocked_short_circuit_witness :
    blockedCheck "please solve the CAPTCHA" = true ∧
    scrape_product reNone 2 "UA" "https://start"
        (.success ⟨"https://www.amazon.ca/dp/B01", 503, "please solve the CAPTCHA", emptyDoc⟩) =
      .ok { name := "Product name not found", brand := "", gtin := "",
            description := "Amazon blocked automated access. Please enter details manually.",
            images := [], price := "Price not found",
            currency := "CAD",
            source := "https://www.amazon.ca/dp/B01", weight := "Weight not found",
            dimensions := sentinelDimensions,
            blocked := some true,
            message := some "Amazon detected automated access. Please enter product details manually.",
            debugInfo := some { status := 503, responseLength := 24,
                                robotCheck := false, captcha := true },
            error := none } := by
  refine ⟨by decide, ?_⟩
  have h := c1_blocked_short_circuit reNone 2 "UA" "https://start"
    ⟨"https://www.amazon.ca/dp/B01", 503, "please solve the CAPTCHA", emptyDoc⟩ (by decide)
  rw [h]
  exact congrArg Except.ok (by decide)

/-- C2 counterexample: the body `"ROBOT CHECK"` contains `"robot check"`
case-insensitively, yet the blocking check does not fire (the `'Robot
Check'` test is case-sensitive) and `scrape_product` takes the normal
extraction path, returning `blocked = false`. -/
theorem c2_counterexample :
    pyIn "robot check" (pyLower "ROBOT CHECK") = true ∧
    blockedCheck "ROBOT CHECK" = false ∧
    (scrape_product reNone 1 "UA" "https://example.com"
        (.success ⟨"https://example.com", 200, "ROBOT CHECK", emptyDoc⟩)).map
      (fun r => r.blocked) = .ok (some false) := by
  refine ⟨by decide, by decide, ?_⟩
  rfl

/-- C2 amended: the blocking check matches `"Robot Check"` case-sensitively
and `"captcha"` case-insensitively; every response body containing either
takes the blocked path. -/
theorem c2_amended_blocking_cases (rx : RegexEngine) (delay : Nat) (ua url : String)
    (resp : HttpResponse)
    (h : pyIn "Robot Check" resp.text = true ∨ pyIn "captcha" (pyLower resp.text) = true) :
    (scrape_product rx delay ua url (.success resp)).map (fun r => r.blocked) =
      .ok (some true) := by
  have hb : blockedCheck resp.text = true := by
    unfold blockedCheck
    rcases h with h | h <;> simp [h]
  simp only [scrape_product, hb, if_true, Except.map]

/-- Witness for the amended C2 at a lower-case captcha body. -/
theorem c2_amended_blocking_cases_witness :
    (scrape_product reNone 1 "UA" "https://example.com"
        (.success ⟨"https://example.com", 200, "a captcha page", emptyDoc⟩)).map
      (fun r => r.blocked) = .ok (some true) :=
  c2_amended_blocking_cases reNone 1 "UA" "https://example.com"
    ⟨"https://example.com", 200, "a captcha page", emptyDoc⟩ (Or.inr (by decide))

/-- C5: on a timeout, `scrape_product` returns normally with the
fully-sentineled record: sentinels for name/price/weight/dimensions, empty
brand/gtin/images, `USD`, the timeout-explanation description, no
`blocked` key, and an `error` key. -/
theorem c5_timeout_record (rx : RegexEngine) (delay : Nat) (ua url : String) :
    scrape_product rx delay ua url .timeout =
      .ok { name := "Product name not found", brand := "", gtin := "",
            description := "Request timed out. The site may be slow or blocking automated access.",
            images := [], price := "Price not found", currency := "USD",
            source := url, weight := "Weight not found",
            dimensions := sentinelDimensions,
            blocked := none, message := none, debugInfo := none,
            error := some "Request timed out" } := rfl

/-- C6 counterexample: the record returned on the timeout path has no
`blocked` key, contradicting the claim that every contract field,
`blocked` included, is always present. -/
theorem c6_counterexample :
    (scrape_product reNone 1 "UA" "https://example.com" .timeout).map
      (fun r => r.blocked) = .ok none := rfl

/-- C6 amended: on the success and blocked paths the `blocked` key is
present (and the other contract fields are always populated, sentinels
standing in for absence); on the timeout path every contract field except
`blocked` is present with its sentinel, `blocked` itself being omitted in
favour of an `error` key. -/
theorem c6_amended_field_presence (rx : RegexEngine) (delay : Nat) (ua url : String)
    (resp : HttpResponse) :
    ((scrape_product rx delay ua url (.success resp)).map
        (fun r => r.blocked.isSome) = .ok true) ∧
    ((scrape_product rx delay ua url .timeout).map
        (fun r => (r.blocked, r.name, r.brand, r.gtin, r.description, r.images, r.price,
                   r.currency, r.source, r.weight, r.dimensions)) =
      .ok (none, "Product name not found", "", "",
           "Request timed out. The site may be slow or blocking automated access.",
           ([] : List String), "Price not found", "USD", url, "Weight not found",
           sentinelDimensions)) := by
  constructor
  · simp only [scrape_product]
    split <;> rfl
  · rfl

/-- C9: the extraction pipeline is deterministic in the fetched content:
the record depends only on the fetch outcome (final URL, status, body,
parsed document), never on the randomized pre-request delay or the
user-agent draw, and no debug field records timing. -/
theorem c9_deterministic (rx : RegexEngine) (d1 d2 : Nat) (ua1 ua2 : String)
    (url : String) (outcome : FetchOutcome) :
    scrape_product rx d1 ua1 url outcome = scrape_product rx d2 ua2 url outcome := rfl

/-- C7 counterexample: `walmart.ca` is a `.ca` retailer domain in the
code's own table, yet a page carrying a `priceCurrency` meta tag of `EUR`
makes `extract_currency` return `EUR`, not `CAD`: the URL-domain lookup
does not take precedence over page content for walmart.ca. -/
theorem c7_counterexample :
    pyIn "walmart.ca" "https://www.walmart.ca/ip/123" = true ∧
    extract_currency { metaPriceCurrency := some (some "EUR") }
        "https://www.walmart.ca/ip/123" = "EUR" := by
  exact ⟨by decide, by decide⟩

/-- C7 amended: only the Amazon country domains take precedence over page
content — `amazon.ca` forces `CAD` and (absent `amazon.ca`/`amazon.com`)
`amazon.co.uk` forces `GBP` — while `walmart.ca`/`ebay.ca` map to `CAD`
only when no Amazon domain matches and neither the `priceCurrency` meta
tag nor JSON-LD `offers.priceCurrency` yields a value. -/
theorem c7_amended_currency_precedence (doc : Document) (url : String) :
    (pyIn "amazon.ca" url = true → extract_currency doc url = "CAD") ∧
    (pyIn "amazon.ca" url = false → pyIn "amazon.com" url = false →
      pyIn "amazon.co.uk" url = true → extract_currency doc url = "GBP") ∧
    (pyIn "amazon.ca" url = false → pyIn "amazon.com" url = false →
      pyIn "amazon.co.uk" url = false → pyIn "amazon.de" url = false →
      pyIn "amazon.fr" url = false → pyIn "amazon.es" url = false →
      pyIn "amazon.it" url = false → pyIn "amazon.co.jp" url = false →
      pyIn "amazon.in" url = false → pyIn "amazon.com.au" url = false →
      doc.metaPriceCurrency = none → doc.currencyScripts.findSome? id = none →
      pyIn "walmart.ca" url = true → extract_currency doc url = "CAD") := by
  refine ⟨fun h1 => ?_, fun h1 h2 h3 => ?_, fun h1 h2 h3 h4 h5 h6 h7 h8 h9 h10 hm hs hw => ?_⟩
  · simp [extract_currency, h1]
  · simp [extract_currency, h1, h2, h3]
  · simp [extract_currency, h1, h2, h3, h4, h5, h6, h7, h8, h9, h10, hm, hs, hw]

/-- Witness for the amended C7 on concrete amazon.ca, amazon.co.uk and
walmart.ca URLs. -/
theorem c7_amended_currency_precedence_witness :
    extract_currency emptyDoc "https://www.amazon.ca/dp/1" = "CAD" ∧
    extract_currency emptyDoc "https://www.amazon.co.uk/dp/1" = "GBP" ∧
    extract_currency emptyDoc "https://www.walmart.ca/ip/1" = "CAD" :=
  ⟨(c7_amended_currency_precedence emptyDoc "https://www.amazon.ca/dp/1").1 (by decide),
   (c7_amended_currency_precedence emptyDoc "https://www.amazon.co.uk/dp/1").2.1
     (by decide) (by decide) (by decide),
   (c7_amended_currency_precedence emptyDoc "https://www.walmart.ca/ip/1").2.2
     (by decide) (by decide) (by decide) (by decide) (by decide) (by decide) (by decide)
     (by decide) (by decide) (by decide) rfl rfl (by decide)⟩

/-- C8 counterexample: on a document with no brand data anywhere and the
product name equal to the name sentinel, the fallback's criteria hold of
the first word `"Product"` (capitalized, length between 2 and 20, not
stoplisted), yet `extract_brand` returns `""` — the code additionally
guards on the name not being the sentinel, which the claim omits. -/
theorem c8_counterexample :
    extract_brand emptyDoc "Product name not found" = "" ∧
    (pySplitWs "Product name not found").head? = some "Product" ∧
    headIsUpper "Product" = true ∧ 2 < "Product".length ∧ "Product".length < 20 ∧
    "Product" ∉ ["New", "The", "Premium", "Professional", "Original", "Genuine", "Authentic"] := by
  refine ⟨by decide, by decide, by decide, by decide, by decide, by decide⟩

/-- C8 amended: on documents whose structured-metadata, selector,
detail-row and specification passes all come up empty, and whose product
name is nonempty and not the name sentinel, `extract_brand` returns
exactly the spec's fallback: the first word when it is capitalized, of
length strictly between 2 and 20, and not stoplisted; `""` otherwise. -/
theorem c8_amended_brand_fallback (doc : Document) (product_name : String)
    (h1 : doc.brandScripts.findSome? brandScriptVal = none)
    (h2 : doc.brandElems.findSome? brandElemVal = none)
    (h3 : doc.detailRows.findSome? brandRowVal = none)
    (h4 : doc.specTexts.findSome? brandSpecVal = none)
    (h5 : product_name ≠ "") (h6 : product_name ≠ "Product name not found") :
    extract_brand doc product_name = specBrandFallback product_name := by
  unfold extract_brand
  rw [h1, h2, h3, h4]
  show brandFromName product_name = specBrandFallback product_name
  unfold brandFromName specBrandFallback
  rw [if_pos ⟨h5, h6⟩]
  cases pySplitWs product_name with
  | nil => rfl
  | cons w ws =>
    by_cases hu : headIsUpper w = true
    · by_cases hl : 2 < w.length ∧ w.length < 20
      · by_cases hst : w ∈ ["New", "The", "Premium", "Professional", "Original", "Genuine", "Authentic"]
        · simp [hu, hl.1, hl.2, hst]
        · simp [hu, hl.1, hl.2, hst]
      · rcases Decidable.not_and_iff_or_not.mp hl with hl1 | hl2
        · have ha : ¬(w.length > 2 ∧ w.length < 20 ∧ headIsUpper w = true) :=
            fun hc => hl1 hc.1
          have hb : ¬(headIsUpper w = true ∧ 2 < w.length ∧ w.length < 20 ∧
              w ∉ ["New", "The", "Premium", "Professional", "Original", "Genuine", "Authentic"]) :=
            fun hc => hl1 hc.2.1
          simp only [ha, hb, if_false, if_neg ha, if_neg hb]
        · have ha : ¬(w.length > 2 ∧ w.length < 20 ∧ headIsUpper w = true) :=
            fun hc => hl2 hc.2.1
          have hb : ¬(headIsUpper w = true ∧ 2 < w.length ∧ w.length < 20 ∧
              w ∉ ["New", "The", "Premium", "Professional", "Original", "Genuine", "Authentic"]) :=
            fun hc => hl2 hc.2.2.1
          simp only [ha, hb, if_false, if_neg ha, if_neg hb]
    · simp [hu]

/-- Witness for the amended C8 on the spec's own example name. -/
theorem c8_amended_brand_fallback_witness :
    extract_brand emptyDoc "Acme Heavy-Duty Widget" =
      specBrandFallback "Acme Heavy-Duty Widget" ∧
    specBrandFallback "Acme Heavy-Duty Widget" = "Acme" :=
  ⟨c8_amended_brand_fallback emptyDoc "Acme Heavy-Duty Widget" rfl rfl rfl rfl
     (by decide) (by decide), by decide⟩

/-- A capture pair whose numeric group consists of digits and dots cannot
format to the weight sentinel (the sentinel starts with `W`). -/
theorem formatWeight_ne_sentinel (g : String × String)
    (h : g.1.data.all (fun c => c.isDigit || c = '.') = true) :
    formatWeight g ≠ "Weight not found" := by
  intro heq
  have hd : (formatWeight g).data = "Weight not found".data := by rw [heq]
  unfold formatWeight at hd
  rw [String.data_append, String.data_append] at hd
  have hW : ("Weight not found" : String).data.head? = some 'W' := rfl
  rcases hg : g.1.data with _ | ⟨c, cs⟩
  · rw [hg, show (" " : String).data = [' '] from rfl] at hd
    have h1 := congrArg List.head? hd
    rw [hW] at h1
    simp only [List.nil_append, List.cons_append, List.head?_cons,
      Option.some.injEq] at h1
    exact absurd h1 (by decide)
  · rw [hg] at hd
    have h1 := congrArg List.head? hd
    rw [hW] at h1
    simp only [List.cons_append, List.head?_cons, Option.some.injEq] at h1
    rw [hg] at h
    simp only [List.all_cons, Bool.and_eq_true] at h
    rw [h1] at h
    exact absurd h.1 (by decide)

/-- C10: the post-hoc weight backfill of `scrape_product` never changes
the weight.  For every regex engine whose matches of these patterns
capture a numeral (digits and dots) in group 1, every list of selector
texts and every product name: either `extract_weight` found a value (then
the backfill guard fails because the value is not the sentinel), or its
title pass already ran all five backfill patterns (they are literally
among the seven title patterns) against the same name and failed, so the
backfill cannot match either; the assembled weight always equals
`extract_weight`'s output. -/
theorem c10_weight_backfill_noop
    (search : String → String → Option (String × String))
    (hsearch : ∀ p t g, search p t = some g →
      g.1.data.all (fun c => c.isDigit || c = '.') = true)
    (weightTexts : List String) (name : String) :
    weight_backfill search name (extract_weight search weightTexts (some name)) =
      extract_weight search weightTexts (some name) := by
  cases hsel : weightTexts.findSome? (fun t => weight_patterns.findSome? (fun p => search p t)) with
  | some g =>
    obtain ⟨t, _, ht⟩ := List.exists_of_findSome?_eq_some hsel
    obtain ⟨p, _, hp⟩ := List.exists_of_findSome?_eq_some ht
    have hne := formatWeight_ne_sentinel g (hsearch p t g hp)
    have hval : extract_weight search weightTexts (some name) = formatWeight g := by
      unfold extract_weight
      rw [hsel]
    rw [hval]
    unfold weight_backfill
    rw [if_neg (fun hc => hne hc.1)]
  | none =>
    cases htit : weight_title_patterns.findSome? (fun p => search p name) with
    | some g =>
      obtain ⟨p, _, hp⟩ := List.exists_of_findSome?_eq_some htit
      have hne := formatWeight_ne_sentinel g (hsearch p name g hp)
      have hval : extract_weight search weightTexts (some name) = formatWeight g := by
        unfold extract_weight
        rw [hsel]
        simp only [htit]
      rw [hval]
      unfold weight_backfill
      rw [if_neg (fun hc => hne hc.1)]
    | none =>
      have hval : extract_weight search weightTexts (some name) = "Weight not found" := by
        unfold extract_weight
        rw [hsel]
        simp only [htit]
      have hnone : backfill_weight_patterns.findSome? (fun p => search p name) = none := by
        rw [List.findSome?_eq_none_iff]
        intro p hp
        have hmem : p ∈ weight_title_patterns := by
          fin_cases hp <;> decide
        exact List.findSome?_eq_none_iff.mp htit p hmem
      rw [hval]
      unfold weight_backfill
      split
      · rw [hnone]
      · rfl

/-- Witness for C10 with the never-matching engine, an empty selector pass
and a unit-bearing product name. -/
theorem c10_weight_backfill_noop_witness :
    weight_backfill (fun _ _ => none) "Hand Soap 16 fl oz"
        (extract_weight (fun _ _ => none) [] (some "Hand Soap 16 fl oz")) =
      extract_weight (fun _ _ => none) [] (some "Hand Soap 16 fl oz") :=
  c10_weight_backfill_noop (fun _ _ => none)
    (fun _ _ _ h => by cases h) [] "Hand Soap 16 fl oz"

/-- The de-duplicating fold keeps the accumulator duplicate-free. -/
theorem dedupStep_nodup :
    ∀ (l acc : List String), acc.Nodup →
      (l.foldl (fun acc img => if img ∈ acc then acc else acc ++ [img]) acc).Nodup
  | [], _, h => h
  | x :: xs, acc, h => by
    simp only [List.foldl_cons]
    split
    · exact dedupStep_nodup xs acc h
    · rename_i hx
      exact dedupStep_nodup xs (acc ++ [x]) (by simp [List.nodup_append, h, hx])

/-- Everything the de-duplicating fold produces came from the accumulator
or the input. -/
theorem dedupStep_mem :
    ∀ (l acc : List String) (x : String),
      x ∈ l.foldl (fun acc img => if img ∈ acc then acc else acc ++ [img]) acc →
      x ∈ acc ∨ x ∈ l
  | [], _, _, h => Or.inl h
  | y :: ys, acc, x, h => by
    simp only [List.foldl_cons] at h
    split at h
    · rcases dedupStep_mem ys acc x h with h' | h'
      · exact Or.inl h'
      · exact Or.inr (List.mem_cons_of_mem _ h')
    · rcases dedupStep_mem ys (acc ++ [y]) x h with h' | h'
      · rcases List.mem_append.mp h' with h'' | h''
        · exact Or.inl h''
        · simp only [List.mem_singleton] at h''
          exact Or.inr (h'' ▸ List.mem_cons_self _ _)
      · exact Or.inr (List.mem_cons_of_mem _ h')

/-- `uniquePreserve` returns a duplicate-free list. -/
theorem uniquePreserve_nodup (l : List String) : (uniquePreserve l).Nodup :=
  dedupStep_nodup l [] List.nodup_nil

/-- `uniquePreserve` never invents elements. -/
theorem mem_of_mem_uniquePreserve {l : List String} {x : String}
    (h : x ∈ uniquePreserve l) : x ∈ l :=
  (dedupStep_mem l [] x h).resolve_left (by simp)

/-- A fold whose step preserves a property of every accumulator element
preserves it globally. -/
theorem foldl_preserve {α β : Type} (P : α → Prop) (f : List α → β → List α)
    (hf : ∀ acc el, (∀ v ∈ acc, P v) → ∀ x ∈ f acc el, P x) :
    ∀ (l : List β) (acc : List α), (∀ v ∈ acc, P v) → ∀ x ∈ l.foldl f acc, P x
  | [], _, h, _, hx => h _ hx
  | e :: es, acc, h, x, hx => by
    simp only [List.foldl_cons] at hx
    exact foldl_preserve P f hf es (f acc e) (hf acc e h) x hx

/-- `addImage` never adds a `.gif` URL. -/
theorem addImage_nogif (images : List String) (u : String)
    (h : ∀ v ∈ images, pyEndsWith v ".gif" = false) :
    ∀ x ∈ addImage images u, pyEndsWith x ".gif" = false := by
  intro x hx
  unfold addImage at hx
  split at hx
  · rename_i hcond
    rcases List.mem_append.mp hx with h' | h'
    · exact h x h'
    · simp only [List.mem_singleton] at h'
      subst h'
      simpa using hcond.2
  · exact h x hx

/-- The Amazon image step preserves gif-freedom. -/
theorem processAmazonImg_nogif (base : String) (images : List String) (el : ImgEl)
    (h : ∀ v ∈ images, pyEndsWith v ".gif" = false) :
    ∀ x ∈ processAmazonImg base images el, pyEndsWith x ".gif" = false := by
  intro x hx
  unfold processAmazonImg at hx
  split at hx
  · split at hx
    · exact addImage_nogif _ _ h x hx
    · exact h x hx
  · exact h x hx

/-- The general image step preserves gif-freedom. -/
theorem processGeneralImg_nogif (base : String) (images : List String) (el : ImgEl)
    (h : ∀ v ∈ images, pyEndsWith v ".gif" = false) :
    ∀ x ∈ processGeneralImg base images el, pyEndsWith x ".gif" = false := by
  intro x hx
  unfold processGeneralImg at hx
  split at hx
  · split at hx
    · exact h x hx
    · exact addImage_nogif _ _ h x hx
  · exact h x hx

/-- No selector-collected image URL ends in `.gif`. -/
theorem selectorImages_nogif (doc : Document) (base_url : String) :
    ∀ x ∈ selectorImages doc base_url, pyEndsWith x ".gif" = false := by
  unfold selectorImages
  split
  · exact foldl_preserve _ _ (processAmazonImg_nogif base_url) doc.amazonImgs []
      (by simp)
  · exact foldl_preserve _ _ (processGeneralImg_nogif base_url) doc.generalImgs []
      (by simp)

/-- C3 counterexample: a document whose only image is the JSON-LD value
`"pic.gif"` yields `images = ["pic.gif"]` — a `.gif` URL (and a relative
one): the `.gif` filter and URL resolution do not apply to JSON-LD
harvested images. -/
theorem c3_counterexample :
    extract_images { ldImages := [.str "pic.gif"] } "https://example.com/p" = ["pic.gif"] ∧
    pyEndsWith "pic.gif" ".gif" = true := by
  exact ⟨rfl, by decide⟩

/-- C3 amended: the final image list is always duplicate-free and capped
at 10, and each of its URLs is either a selector-collected URL — those are
filtered against `.gif` suffixes (and passed through protocol coercion and
base-URL resolution) — or a JSON-LD harvested URL appended verbatim,
without the `.gif` filter or URL resolution. -/
theorem c3_amended_images_invariants (doc : Document) (base_url : String) :
    (extract_images doc base_url).Nodup ∧
    (extract_images doc base_url).length ≤ 10 ∧
    (∀ u ∈ extract_images doc base_url,
        u ∈ selectorImages doc base_url ∨ u ∈ ldHarvest doc) ∧
    (∀ u ∈ selectorImages doc base_url, pyEndsWith u ".gif" = false) := by
  refine ⟨?_, ?_, ?_, selectorImages_nogif doc base_url⟩
  · exact (uniquePreserve_nodup _).sublist (List.take_sublist _ _)
  · exact List.length_take_le _ _
  · intro u hu
    exact List.mem_append.mp
      (mem_of_mem_uniquePreserve (List.mem_of_mem_take hu))

/-- Witness for the amended C3 on a document with one selector image and
one JSON-LD image. -/
theorem c3_amended_images_invariants_witness :
    (extract_images { generalImgs := [{ src := some "a.jpg" }], ldImages := [.str "b.jpg"] }
        "https://e.com/x").Nodup ∧
    (extract_images { generalImgs := [{ src := some "a.jpg" }], ldImages := [.str "b.jpg"] }
        "https://e.com/x").length ≤ 10 ∧
    ("https://e.com/a.jpg" ∈
        selectorImages { generalImgs := [{ src := some "a.jpg" }], ldImages := [.str "b.jpg"] }
          "https://e.com/x" ∨
      "https://e.com/a.jpg" ∈
        ldHarvest { generalImgs := [{ src := some "a.jpg" }], ldImages := [.str "b.jpg"] }) ∧
    pyEndsWith "https://e.com/a.jpg" ".gif" = false :=
  ⟨(c3_amended_images_invariants { generalImgs := [{ src := some "a.jpg" }], ldImages := [.str "b.jpg"] } "https://e.com/x").1,
   (c3_amended_images_invariants { generalImgs := [{ src := some "a.jpg" }], ldImages := [.str "b.jpg"] } "https://e.com/x").2.1,
   (c3_amended_images_invariants { generalImgs := [{ src := some "a.jpg" }], ldImages := [.str "b.jpg"] } "https://e.com/x").2.2.1 _ (by decide),
   (c3_amended_images_invariants { generalImgs := [{ src := some "a.jpg" }], ldImages := [.str "b.jpg"] } "https://e.com/x").2.2.2 _ (by decide)⟩

/-- Every character captured by `\d{1,n}` is a digit. -/
theorem takeDigitsUpTo_all :
    ∀ (n : Nat) (cs : List Char), ∀ c ∈ (takeDigitsUpTo n cs).1, c.isDigit = true
  | _, [] => by simp [takeDigitsUpTo]
  | 0, c :: cs => by simp [takeDigitsUpTo]
  | n + 1, c :: cs => by
    simp only [takeDigitsUpTo]
    split
    · rename_i hd
      intro x hx
      simp only [List.mem_cons] at hx
      rcases hx with rfl | hx
      · exact hd
      · exact takeDigitsUpTo_all n cs x hx
    · simp

/-- When the head is a digit, `\d{1,n+1}` captures at least one
character. -/
theorem takeDigitsUpTo_ne (n : Nat) (c : Char) (cs : List Char)
    (hd : c.isDigit = true) : (takeDigitsUpTo (n + 1) (c :: cs)).1 ≠ [] := by
  simp [takeDigitsUpTo, hd]

/-- Every character captured by `(?:,\d{3})*` is a digit or a comma. -/
theorem commaGroups_all :
    ∀ cs : List Char, ∀ x ∈ (commaGroups cs).1, (x.isDigit || x = ',') = true := by
  intro cs
  induction cs using commaGroups.induct with
  | case1 a b c rest h ih =>
    simp only [commaGroups, h, if_true]
    intro x hx
    simp only [List.mem_cons] at hx
    simp only [Bool.and_eq_true] at h
    rcases hx with rfl | rfl | rfl | rfl | hx
    · simp
    · simp [h.1.1]
    · simp [h.1.2]
    · simp [h.2]
    · exact ih x hx
  | case2 a b c rest h =>
    simp only [commaGroups, h, if_false]
    simp
  | case3 t h =>
    intro x hx
    unfold commaGroups at hx
    split at hx
    · exact (h _ _ _ _ rfl).elim
    · simp at hx

/-- A successful `(?:\.\d{2})?` capture is a dot and two digits. -/
theorem fracPart_shape (cs f : List Char) (h : fracPart cs = some f) :
    ∃ a b, f = ['.', a, b] ∧ a.isDigit = true ∧ b.isDigit = true := by
  unfold fracPart at h
  split at h
  · rename_i a b rest
    split at h
    · rename_i hab
      simp only [Bool.and_eq_true] at hab
      exact ⟨a, b, by injection h with h; exact h.symm, hab.1, hab.2⟩
    · cases h
  · cases h

/-- A match of the price pattern splits into a nonempty digit block, a
digit-or-comma block, and an optional two-decimal fraction. -/
theorem priceMatchAt_shape (cs g : List Char) (h : priceMatchAt cs = some g) :
    ∃ d rest f, g = d ++ rest ++ f ∧ d ≠ [] ∧ (∀ c ∈ d, c.isDigit = true) ∧
      (∀ c ∈ rest, (c.isDigit || c = ',') = true) ∧
      (f = [] ∨ ∃ a b, f = ['.', a, b] ∧ a.isDigit = true ∧ b.isDigit = true) := by
  cases cs with
  | nil => simp [priceMatchAt] at h
  | cons c cs' =>
    unfold priceMatchAt at h
    dsimp only at h
    by_cases hd : c.isDigit
    · rw [if_pos hd] at h
      split at h
      · rename_i f hf
        injection h with h
        refine ⟨(takeDigitsUpTo 3 (c :: cs')).1, (commaGroups (takeDigitsUpTo 3 (c :: cs')).2).1,
          f, h.symm, ?_, takeDigitsUpTo_all 3 _, commaGroups_all _, Or.inr (fracPart_shape _ _ hf)⟩
        exact takeDigitsUpTo_ne 2 c cs' hd
      · injection h with h
        refine ⟨(takeDigitsUpTo 3 (c :: cs')).1, (commaGroups (takeDigitsUpTo 3 (c :: cs')).2).1,
          [], by rw [← h, List.append_nil], ?_, takeDigitsUpTo_all 3 _, commaGroups_all _, Or.inl rfl⟩
        exact takeDigitsUpTo_ne 2 c cs' hd
    · rw [if_neg hd] at h
      cases h

/-- The leftmost search inherits the match shape. -/
theorem priceSearch_shape :
    ∀ (cs g : List Char), priceSearch cs = some g →
      ∃ d rest f, g = d ++ rest ++ f ∧ d ≠ [] ∧ (∀ c ∈ d, c.isDigit = true) ∧
        (∀ c ∈ rest, (c.isDigit || c = ',') = true) ∧
        (f = [] ∨ ∃ a b, f = ['.', a, b] ∧ a.isDigit = true ∧ b.isDigit = true)
  | [], g, h => by cases h
  | c :: cs, g, h => by
    unfold priceSearch at h
    split at h
    · rename_i g' hg'
      injection h with h
      exact h ▸ priceMatchAt_shape (c :: cs) g' hg'
    · exact priceSearch_shape cs g h

/-- A comma-free list of digits, a dot, and two digits satisfies the
spec's price shape. -/
theorem specPriceShapeL_of_parts (d restf : List Char) (a b : Char)
    (hdne : d ≠ []) (hdd : ∀ c ∈ d, c.isDigit = true)
    (hrest : ∀ c ∈ restf, c.isDigit = true)
    (ha : a.isDigit = true) (hb : b.isDigit = true) :
    specPriceShapeL (d ++ restf ++ ['.', a, b]) = true := by
  have hnd : ∀ c ∈ d ++ restf, (fun c => decide (c ≠ '.')) c = true := by
    intro c hc
    have hdig : c.isDigit = true := by
      rcases List.mem_append.mp hc with h | h
      · exact hdd c h
      · exact hrest c h
    refine decide_eq_true (fun he => ?_)
    subst he
    exact absurd hdig (by decide)
  unfold specPriceShapeL
  rw [List.takeWhile_append_of_pos hnd, List.dropWhile_append_of_pos hnd]
  have htail : (['.', a, b] : List Char).takeWhile (fun c => decide (c ≠ '.')) = [] := by
    simp [List.takeWhile_cons]
  have hdrop : (['.', a, b] : List Char).dropWhile (fun c => decide (c ≠ '.')) =
      ['.', a, b] := by
    simp [List.dropWhile_cons]
  rw [htail, hdrop, List.append_nil]
  simp only [Bool.and_eq_true, List.all_eq_true]
  refine ⟨⟨?_, ?_⟩, ?_⟩
  · simp [List.isEmpty_iff, hdne]
  · intro c hc
    rcases List.mem_append.mp hc with h | h
    · exact hdd c h
    · exact hrest c h
  · simp [ha, hb]

/-- The element-text assembly of a matched price group satisfies the
spec's price shape: commas stripped, the group is digits with an optional
two-decimal fraction, and `.00` is appended when there is no dot. -/
theorem elementAssembled_shape (g : List Char)
    (hg : ∃ d rest f, g = d ++ rest ++ f ∧ d ≠ [] ∧ (∀ c ∈ d, c.isDigit = true) ∧
      (∀ c ∈ rest, (c.isDigit || c = ',') = true) ∧
      (f = [] ∨ ∃ a b, f = ['.', a, b] ∧ a.isDigit = true ∧ b.isDigit = true)) :
    specPriceShapeL ((if (g.filter (fun c => c ≠ ',')).contains '.'
        then g.filter (fun c => c ≠ ',')
        else g.filter (fun c => c ≠ ',') ++ ['.', '0', '0']).filter
      (fun c => c ≠ ',')) = true := by
  obtain ⟨d, rest, f, rfl, hdne, hdd, hrest, hf⟩ := hg
  have hfilter_id : ∀ (l : List Char), (∀ c ∈ l, c ≠ ',') →
      l.filter (fun c => c ≠ ',') = l := by
    intro l hl
    exact List.filter_eq_self.mpr (fun a ha => decide_eq_true (hl a ha))
  have hd_id : d.filter (fun c => c ≠ ',') = d := by
    refine hfilter_id d (fun c hc he => ?_)
    subst he
    exact absurd (hdd _ hc) (by decide)
  have hrestf_dig : ∀ c ∈ rest.filter (fun c => c ≠ ','), c.isDigit = true := by
    intro c hc
    rw [List.mem_filter] at hc
    have h' := hrest c hc.1
    rw [Bool.or_eq_true] at h'
    rcases h' with h | h
    · exact h
    · exact absurd (of_decide_eq_true h) (of_decide_eq_true hc.2)
  have hd_nocomma : ∀ c ∈ d, c ≠ ',' := by
    intro c hc he
    subst he
    exact absurd (hdd _ hc) (by decide)
  rcases hf with rfl | ⟨a, b, rfl, ha, hb⟩
  · -- no fraction matched: `.00` is appended
    rw [List.append_nil, List.filter_append, hd_id]
    set restf := rest.filter (fun c => c ≠ ',') with hrestf
    have hnodot : (d ++ restf).contains '.' = false := by
      refine Bool.eq_false_iff.mpr (fun hc => ?_)
      have hm : ('.' : Char) ∈ d ++ restf := List.elem_iff.mp hc
      rcases List.mem_append.mp hm with h | h
      · exact absurd (hdd _ h) (by decide)
      · exact absurd (hrestf_dig _ h) (by decide)
    rw [hnodot]
    simp only [Bool.false_eq_true, if_false]
    have hall : ∀ c ∈ d ++ restf ++ ['.', '0', '0'], c ≠ ',' := by
      intro c hc he
      subst he
      rcases List.mem_append.mp hc with h | h
      · rcases List.mem_append.mp h with h' | h'
        · exact absurd (hdd _ h') (by decide)
        · exact absurd (hrestf_dig _ h') (by decide)
      · simp at h
    rw [hfilter_id _ hall]
    exact specPriceShapeL_of_parts d restf '0' '0' hdne hdd hrestf_dig (by decide) (by decide)
  · -- a `.dd` fraction was matched
    rw [List.filter_append, List.filter_append, hd_id]
    set restf := rest.filter (fun c => c ≠ ',') with hrestf
    have hfrac_id : (['.', a, b] : List Char).filter (fun c => c ≠ ',') = ['.', a, b] := by
      refine hfilter_id _ (fun c hc he => ?_)
      subst he
      simp only [List.mem_cons] at hc
      rcases hc with h | h | h
      · exact absurd h.symm (by decide)
      · exact absurd (h ▸ ha) (by decide)
      · rcases h with h | h
        · exact absurd (h ▸ hb) (by decide)
        · simp at h
    rw [hfrac_id]
    have hasdot : ((d ++ restf ++ ['.', a, b]).contains '.') = true := by
      refine List.elem_iff.mpr ?_
      refine List.mem_append.mpr (Or.inr ?_)
      simp
    rw [hasdot]
    simp only [if_true]
    have hall : ∀ c ∈ d ++ restf ++ ['.', a, b], c ≠ ',' := by
      intro c hc he
      subst he
      rcases List.mem_append.mp hc with h | h
      · rcases List.mem_append.mp h with h' | h'
        · exact absurd (hdd _ h') (by decide)
        · exact absurd (hrestf_dig _ h') (by decide)
      · simp only [List.mem_cons] at h
        rcases h with h | h | h
        · exact absurd h (by decide)
        · exact absurd (h ▸ ha) (by decide)
        · rcases h with h | h
          · exact absurd (h ▸ hb) (by decide)
          · simp at h
    rw [hfilter_id _ hall]
    exact specPriceShapeL_of_parts d restf a b hdne hdd hrestf_dig ha hb

/-- C4 counterexample: a page whose JSON-LD offers carry the price string
`"19.9"` makes `extract_price` return `"19.9"` — a non-sentinel price with
one fractional digit, violating the claimed `\d+(,\d{3})*\.\d{2}` shape:
the structured-metadata path only appends `.00` to dot-free digit strings
and otherwise passes the value through. -/
theorem c4_counterexample :
    extract_price { priceScripts := [.dict (some "19.9") none] } = "19.9" ∧
    specPriceShape "19.9" = false ∧ "19.9" ≠ "Price not found" := by
  exact ⟨rfl, by decide, by decide⟩

/-- C4 amended: every price produced by the element-text extraction path
(selector hit that is not a meta tag) matches `\d+(,\d{3})*\.\d{2}` after
thousands-commas are stripped — in particular it has exactly two
fractional digits.  The structured-metadata, meta-tag and whole+fraction
paths do not guarantee this shape. -/
theorem c4_amended_element_price_shape (t p : String)
    (h : elementTextPrice t = some p) : specPriceShape p = true := by
  unfold elementTextPrice at h
  dsimp only at h
  split at h
  · rename_i g hg
    injection h with h
    subst h
    unfold specPriceShape
    exact elementAssembled_shape g (priceSearch_shape _ g hg)
  · cases h

/-- Witness for the amended C4 on the spec's own vector `"$1,299"`. -/
theorem c4_amended_element_price_shape_witness :
    elementTextPrice "$1,299" = some "1299.00" ∧ specPriceShape "1299.00" = true :=
  ⟨by decide, c4_amended_element_price_shape "$1,299" "1299.00" (by decide)⟩
